import Mathlib

/-!
Shallow embedding of the POS server (src/Server/server.js) mutating
endpoints: the stock ledger (PATCH /api/inventory/:id/stock), the sale
commit engine (POST /api/sales), the member identifier allocator and
member creation (POST /api/members), and the direct points update
(PATCH /api/members/:id/points).

Database tables are modelled as lists of rows in table order; a SQL
SELECT ... WHERE returns the sublist of matching rows (handlers read
`rows[0]`, the first match); UPDATE ... WHERE rewrites every matching
row; INSERT appends.  JS numbers arriving in request bodies are
modelled as `Option ℚ` (`none` = the value is absent or not a number,
so the typeof-number check fails); numbers stored in rows are `ℚ`.
Each handler takes a fault oracle telling which of its queries (by
position) the storage layer rejects; a rejected query throws, the
catch block rolls the transaction back and answers 500.
-/

namespace POS

/-- Primitive connection events a handler emits, in order. -/
inductive Ev
  | beginTx
  | read
  | write
  | commit
  | rollback
deriving DecidableEq, Repr

/-- A row of the `inventory` table. -/
structure InventoryRow where
  id : Nat
  name : String
  sku : String
  category : String
  stock : ℚ
  price : ℚ
  reorderPoint : ℚ
  brand : String
deriving DecidableEq, Repr

/-- A row of the `stock_history` table. -/
structure StockHistoryRow where
  inventoryId : Nat
  oldQuantity : ℚ
  newQuantity : ℚ
  changeReason : String
deriving DecidableEq, Repr

/-- A row of the `sales` table (`id` is the auto-increment surrogate key). -/
structure SaleRow where
  id : Nat
  transactionId : String
  customerName : Option String
  memberId : Option String
  paymentMethod : String
  subtotal : ℚ
  discount : ℚ
  sst : ℚ
  totalAmount : ℚ
deriving DecidableEq, Repr

/-- A row of the `sales_items` table. -/
structure SaleItemRow where
  saleId : Nat
  productId : Nat
  quantity : ℚ
  pricePerUnit : ℚ
  discountPercentage : ℚ
deriving DecidableEq, Repr

/-- A row of the `members` table. -/
structure MemberRow where
  memberId : String
  name : String
  email : String
  phone : String
  tier : String
  points : ℚ
  totalSpent : ℚ
deriving DecidableEq, Repr

/-- A row of the `member_points_history` table.  The handler inserts the
memberId of the request verbatim, which may be null, hence `Option`. -/
structure PointsHistoryRow where
  memberId : Option String
  saleId : Nat
  pointsEarned : ℚ
  pointsBalance : ℚ
deriving DecidableEq, Repr

/-- The database state: one list per table, in table order, plus the
auto-increment counter of the `sales` table. -/
structure DBState where
  inventory : List InventoryRow
  stockHistory : List StockHistoryRow
  sales : List SaleRow
  salesItems : List SaleItemRow
  members : List MemberRow
  pointsHistory : List PointsHistoryRow
  nextSaleId : Nat
deriving DecidableEq, Repr

/-- `SELECT * FROM inventory WHERE id = ?` and take `rows[0]`. -/
def findItem (st : DBState) (itemId : Nat) : Option InventoryRow :=
  (st.inventory.filter (fun r => r.id == itemId)).head?

/-- `SELECT * FROM members WHERE member_id = ?` and take `rows[0]`. -/
def findMember (st : DBState) (memberId : String) : Option MemberRow :=
  (st.members.filter (fun r => r.memberId == memberId)).head?

/-- `UPDATE inventory SET stock = ? WHERE id = ?`. -/
def updateStock (inv : List InventoryRow) (itemId : Nat) (q : ℚ) :
    List InventoryRow :=
  inv.map (fun r => if r.id == itemId then { r with stock := q } else r)

/-- `UPDATE members SET points = ? WHERE member_id = ?`. -/
def updateMemberPoints (ms : List MemberRow) (memberId : String) (p : ℚ) :
    List MemberRow :=
  ms.map (fun r => if r.memberId == memberId then { r with points := p } else r)

/-! ### Stock ledger: PATCH /api/inventory/:id/stock -/

/-- Outcome of the stock-adjustment handler: the JSON row answered with
200, or the HTTP failure status the handler produces. -/
inductive StockResult
  | ok (item : InventoryRow)
  | invalidQuantity
  | itemNotFound
  | failure
deriving DecidableEq, Repr

/-- The state after the two writes of the stock handler: the stock
UPDATE and the history INSERT, committed together. -/
def stockCommitted (st : DBState) (itemId : Nat) (q : ℚ) (reason : String)
    (old : ℚ) : DBState :=
  { st with
    inventory := updateStock st.inventory itemId q
    stockHistory := st.stockHistory ++ [⟨itemId, old, q, reason⟩] }

/-- The PATCH /api/inventory/:id/stock handler.  `newQuantity` is the
body field (`none` when absent or not of number type), `failAt` tells
which queries the storage layer rejects (0 = the current-item SELECT,
1 = the stock UPDATE, 2 = the history INSERT, 3 = COMMIT, 4 = the
post-commit re-SELECT).  Returns the observable database state, the
response, and the trace of connection events.

Mirrors the source exactly: the transaction is begun before the body is
validated; an invalid quantity answers 400 with no rollback and no
write; a missing item rolls back and answers 404; a storage fault rolls
back and answers 500; a fault in the re-SELECT after COMMIT answers 500
although the writes are already committed. -/
def adjustStock (st : DBState) (itemId : Nat) (newQuantity : Option ℚ)
    (reason : String) (failAt : Nat → Bool) :
    DBState × StockResult × List Ev :=
  -- await connection.beginTransaction()
  match newQuantity with
  | none => (st, .invalidQuantity, [.beginTx])
  | some q =>
    if q < 0 then (st, .invalidQuantity, [.beginTx])
    else if failAt 0 then (st, .failure, [.beginTx, .rollback])
    else
      match findItem st itemId with
      | none => (st, .itemNotFound, [.beginTx, .read, .rollback])
      | some current =>
        if failAt 1 then (st, .failure, [.beginTx, .read, .rollback])
        else if failAt 2 then (st, .failure, [.beginTx, .read, .write, .rollback])
        else if failAt 3 then
          (st, .failure, [.beginTx, .read, .write, .write, .rollback])
        else if failAt 4 then
          (stockCommitted st itemId q reason current.stock, .failure,
            [.beginTx, .read, .write, .write, .commit, .rollback])
        else
          match findItem (stockCommitted st itemId q reason current.stock)
              itemId with
          | none => (stockCommitted st itemId q reason current.stock, .failure,
              [.beginTx, .read, .write, .write, .commit, .read])
          | some updated =>
            (stockCommitted st itemId q reason current.stock, .ok updated,
              [.beginTx, .read, .write, .write, .commit, .read])

/-! ### Identifier allocator (POST /api/members, ID computation) -/

/-- `member_id.match(/\d+/)`: the first maximal run of decimal digits in
the string, or `none` when the string has no digit. -/
def firstDigitRun : List Char → Option (List Char)
  | [] => none
  | c :: cs =>
    if c.isDigit then some (c :: cs.takeWhile Char.isDigit)
    else firstDigitRun cs

/-- `parseInt(ds, 10)` on a nonempty string of decimal digits. -/
def parseDigits (ds : List Char) : Nat :=
  ds.foldl (fun n c => n * 10 + (c.toNat - 48)) 0

/-- The `forEach` loop of the handler: fold over the existing member
identifiers keeping the largest numeric value of a first digit run. -/
def maxNumber (ids : List String) : Nat :=
  ids.foldl
    (fun mx mid =>
      match firstDigitRun mid.data with
      | some ds => let n := parseDigits ds; if n > mx then n else mx
      | none => mx)
    0

/-- `String(n).padStart(len, c)`. -/
def padStart (s : String) (len : Nat) (c : Char) : String :=
  if len ≤ s.length then s
  else String.mk (List.replicate (len - s.length) c) ++ s

/-- The generated identifier: `M` + `String(maxNumber+1).padStart(3,'0')`. -/
def nextMemberId (ids : List String) : String :=
  "M" ++ padStart (toString (maxNumber ids + 1)) 3 '0'

/-- The numeric value of the first digit run of an identifier, taking 0 when
no digit run exists. -/
def runValue (mid : String) : Nat :=
  ((firstDigitRun mid.data).map parseDigits).getD 0

/-- Phrased from the spec sentence: take the maximum over all members of
the numeric value of the first digit run (0 when no digit run exists),
add one, zero-pad to at least 3 digits after an `M`. -/
def specNextMemberId (ids : List String) : String :=
  "M" ++ padStart (toString ((ids.map runValue).foldr max 0 + 1)) 3 '0'

/-! ### Member creation: POST /api/members -/

/-- Outcome of the member-creation handler: 201 with the re-selected
row (`rows[0]`, possibly absent), or the HTTP failure status. -/
inductive CreateResult
  | created (m : Option MemberRow)
  | failure (status : Nat)
deriving DecidableEq, Repr

/-- The POST /api/members handler.  Body fields are strings where `""`
stands for any JS-falsy value (missing field or empty string).  `failAt`
tells which queries are rejected (0 = the SELECT of existing ids, 1 =
the INSERT, 2 = the re-SELECT).

Mirrors the source: missing fields throw, and the catch block answers
500 (not 400); no transaction is ever begun; the new member is inserted
with 0 points and 0 total spent and re-selected by its generated id. -/
def createMember (st : DBState) (name email phone tier : String)
    (failAt : Nat → Bool) : DBState × CreateResult × List Ev :=
  if name == "" || email == "" || phone == "" || tier == "" then
    (st, .failure 500, [])
  else if failAt 0 then (st, .failure 500, [.read])
  else
    let memberId := nextMemberId (st.members.map (fun m => m.memberId))
    if failAt 1 then (st, .failure 500, [.read, .rollback])
    else
      let inserted : DBState :=
        { st with members := st.members ++
            [⟨memberId, name, email, phone, tier, 0, 0⟩] }
      if failAt 2 then (inserted, .failure 500, [.read, .write, .rollback])
      else (inserted, .created (findMember inserted memberId),
        [.read, .write, .read])

/-! ### Sale commit engine: POST /api/sales -/

/-- One element of the `items` array of the request.  `discount` is `none`
when the field is absent (the handler stores `item.discount || 0`). -/
structure SaleReqItem where
  id : Nat
  quantity : ℚ
  price : ℚ
  discount : Option ℚ
deriving DecidableEq, Repr

/-- The `memberDetails` block of a sale request. -/
structure MemberDetails where
  pointsEarned : ℚ
  newTotalPoints : ℚ
deriving DecidableEq, Repr

/-- The body of POST /api/sales. -/
structure SaleRequest where
  transactionId : String
  customerName : Option String
  memberId : Option String
  paymentMethod : String
  items : List SaleReqItem
  subtotal : ℚ
  discount : ℚ
  sst : ℚ
  totalAmount : ℚ
  memberDetails : Option MemberDetails
deriving DecidableEq, Repr

/-- `item.discount || 0`: a JS `||` yields 0 both for an absent field
and for a 0 discount, so `getD 0` is exact. -/
def discountOrZero (d : Option ℚ) : ℚ := d.getD 0

/-- The rows the item-insertion loop produces, with the query counter
threaded through `failAt`; `none` when some INSERT is rejected. -/
def insertItems (saleId : Nat) (items : List SaleReqItem) (k : Nat)
    (failAt : Nat → Bool) : Option (List SaleItemRow × Nat) :=
  match items with
  | [] => some ([], k)
  | it :: rest =>
    if failAt k then none
    else
      match insertItems saleId rest (k + 1) failAt with
      | none => none
      | some (rows, k2) =>
        some (⟨saleId, it.id, it.quantity, it.price,
          discountOrZero it.discount⟩ :: rows, k2)

/-- The sale-header row the handler inserts; its id is the current
auto-increment value of the `sales` table. -/
def saleRowOf (st : DBState) (req : SaleRequest) : SaleRow :=
  ⟨st.nextSaleId, req.transactionId, req.customerName, req.memberId,
    req.paymentMethod, req.subtotal, req.discount, req.sst, req.totalAmount⟩

/-- The members table after the sale does `UPDATE members SET points = ?
WHERE member_id = ?`: when the request carries no member id the
parameter is null and the UPDATE matches no row. -/
def membersAfterSale (st : DBState) (req : SaleRequest) (md : MemberDetails) :
    List MemberRow :=
  match req.memberId with
  | some mid => updateMemberPoints st.members mid md.newTotalPoints
  | none => st.members

/-- The committed state of a sale without member details: the header row
plus the line-item rows. -/
def saleCommitted (st : DBState) (req : SaleRequest)
    (rows : List SaleItemRow) : DBState :=
  { st with
    sales := st.sales ++ [saleRowOf st req]
    salesItems := st.salesItems ++ rows
    nextSaleId := st.nextSaleId + 1 }

/-- The committed state of a sale carrying member details: additionally
one points-history row and the member-points overwrite. -/
def saleCommittedMember (st : DBState) (req : SaleRequest)
    (rows : List SaleItemRow) (md : MemberDetails) : DBState :=
  { st with
    sales := st.sales ++ [saleRowOf st req]
    salesItems := st.salesItems ++ rows
    members := membersAfterSale st req md
    pointsHistory := st.pointsHistory ++
      [⟨req.memberId, st.nextSaleId, md.pointsEarned, md.newTotalPoints⟩]
    nextSaleId := st.nextSaleId + 1 }

/-- The POST /api/sales handler.  `failAt` tells which queries are
rejected, counted in program order: 0 = the sale-header INSERT,
1..n = the line-item INSERTs, then (when `memberDetails` is present)
the points-history INSERT and the member UPDATE, and finally COMMIT.
Returns the observable state and `some saleId` on 201, `none` on the
500 rollback path.

Mirrors the source: one transaction wraps the header insert, the item
loop, and the optional points-history insert plus member-points
overwrite; any rejected query rolls everything back; inventory is never
touched. -/
def commitSale (st : DBState) (req : SaleRequest) (failAt : Nat → Bool) :
    DBState × Option Nat :=
  if failAt 0 then (st, none)
  else
    match insertItems st.nextSaleId req.items 1 failAt with
    | none => (st, none)
    | some (rows, k) =>
      match req.memberDetails with
      | none =>
        if failAt k then (st, none)
        else (saleCommitted st req rows, some st.nextSaleId)
      | some md =>
        if failAt k then (st, none)
        else if failAt (k + 1) then (st, none)
        else if failAt (k + 2) then (st, none)
        else (saleCommittedMember st req rows md, some st.nextSaleId)

/-! ### Direct points update: PATCH /api/members/:id/points -/

/-- Outcome of the points-update handler: it answers `{success: true}`
or, only when the UPDATE itself is rejected by storage, 500. -/
inductive UpdateResult
  | success
  | failure
deriving DecidableEq, Repr

/-- The PATCH /api/members/:id/points handler.  Mirrors the source: the
`points` value of the body is written unvalidated to every row whose
member_id matches; the handler never checks how many rows were affected
and answers success either way. -/
def updatePoints (st : DBState) (memberId : String) (points : ℚ)
    (failQuery : Bool) : DBState × UpdateResult :=
  if failQuery then (st, .failure)
  else ({ st with members := updateMemberPoints st.members memberId points },
    .success)

/-- Every inventory row carries a non-negative stock quantity. -/
def nonNegStocks (st : DBState) : Bool :=
  st.inventory.all (fun r => 0 ≤ r.stock)

/-- Auto-increment well-formedness: every surrogate sale id already in
the database is below the counter, so a freshly inserted sale id is new. -/
def WF (st : DBState) : Bool :=
  st.sales.all (fun s => s.id < st.nextSaleId) &&
  st.salesItems.all (fun r => r.saleId < st.nextSaleId) &&
  st.pointsHistory.all (fun r => r.saleId < st.nextSaleId)

/-! ### Concrete fixtures -/

/-- An empty database. -/
def stEmpty : DBState := ⟨[], [], [], [], [], [], 1⟩

/-- A sample inventory row at stock 10. -/
def invWidget : InventoryRow :=
  ⟨1, "Widget", "SKU1", "Stationery", 10, 5, 2, "Acme"⟩

/-- A database holding only `invWidget`. -/
def stInv : DBState := ⟨[invWidget], [], [], [], [], [], 1⟩

/-- A sample member at 100 points. -/
def memAnn : MemberRow := ⟨"M001", "Ann", "ann@shop.test", "0123", "Gold", 100, 0⟩

/-- A database holding only `memAnn`. -/
def stMember : DBState := ⟨[], [], [], [], [memAnn], [], 1⟩

/-- The rational 5/2, a number that is not a whole number. -/
def fiveHalves : ℚ := ⟨5, 2, by norm_num, by norm_num⟩

/-- A one-item sale request without member details. -/
def reqPlain : SaleRequest :=
  ⟨"T100", none, none, "Cash", [⟨1, 2, 5, none⟩], 10, 0, 0, 10, none⟩

/-- A two-item sale request for member M001 carrying member details
{pointsEarned 10, newTotalPoints 110}. -/
def reqMember : SaleRequest :=
  ⟨"T200", some "Bob", some "M001", "Card",
    [⟨1, 1, 5, none⟩, ⟨2, 3, 2, some 10⟩], 11, 0, 0, 11, some ⟨10, 110⟩⟩

/-- The fault pattern under which the storage layer rejects nothing. -/
def noFail : Nat → Bool := fun _ => false

/-! ### Helper lemmas -/

/-- Filtering on an id above every id in the list yields nothing. -/
theorem filter_beq_nil_of_lt {α : Type} (f : α → Nat) (l : List α) (n : Nat)
    (h : ∀ x ∈ l, f x < n) : l.filter (fun x => f x == n) = [] :=
  List.filter_eq_nil_iff.mpr (fun a ha => by
    simp only [beq_iff_eq]
    exact Nat.ne_of_lt (h a ha))

/-- A row-conditional UPDATE (map with an ite on the WHERE predicate)
commutes with filtering on that predicate, when the rewrite preserves
the predicate. -/
theorem filter_map_ite {α : Type} (p : α → Bool) (f : α → α)
    (hp : ∀ a, p (f a) = p a) (l : List α) :
    (l.map (fun a => if p a then f a else a)).filter p =
      (l.filter p).map f := by
  induction l with
  | nil => rfl
  | cons a l ih =>
    by_cases h : p a
    · rw [List.map_cons, if_pos h, List.filter_cons, hp a, List.filter_cons,
        if_pos h, if_pos h, List.map_cons, ih]
    · rw [List.map_cons, if_neg h, List.filter_cons, List.filter_cons,
        if_neg h, if_neg h, ih]

/-- The member-points UPDATE commutes with filtering on the same id. -/
theorem updateMemberPoints_filter (ms : List MemberRow) (mid : String)
    (p : ℚ) :
    (updateMemberPoints ms mid p).filter (fun r => r.memberId == mid) =
      (ms.filter (fun r => r.memberId == mid)).map
        (fun r => { r with points := p }) :=
  filter_map_ite (fun r => r.memberId == mid)
    (fun r => { r with points := p }) (fun _ => rfl) ms

/-- A row of the updated members table whose id matches carries the
written points value. -/
theorem points_of_mem_updateMemberPoints (ms : List MemberRow)
    (mid : String) (p : ℚ) (r : MemberRow)
    (hr : r ∈ updateMemberPoints ms mid p) (hid : r.memberId = mid) :
    r.points = p := by
  rcases List.mem_map.mp hr with ⟨a, ha, heq⟩
  by_cases h : a.memberId = mid
  · rw [if_pos (by simpa using h)] at heq
    rw [← heq]
  · rw [if_neg (by simpa using h)] at heq
    exact absurd (heq ▸ hid) h

/-- The member-points UPDATE touches no row when no id matches. -/
theorem updateMemberPoints_id (ms : List MemberRow) (mid : String) (p : ℚ)
    (h : ∀ r ∈ ms, r.memberId ≠ mid) : updateMemberPoints ms mid p = ms := by
  unfold updateMemberPoints
  rw [show ms = ms.map id from (List.map_id ms).symm]
  rw [List.map_map]
  exact List.map_congr_left (fun a ha => by
    simp [if_neg (by simpa using h a ha)])

/-- The stock UPDATE commutes with filtering on the same id. -/
theorem updateStock_filter (inv : List InventoryRow) (itemId : Nat) (q : ℚ) :
    (updateStock inv itemId q).filter (fun r => r.id == itemId) =
      (inv.filter (fun r => r.id == itemId)).map
        (fun r => { r with stock := q }) :=
  filter_map_ite (fun r => r.id == itemId)
    (fun r => { r with stock := q }) (fun _ => rfl) inv

/-- Re-selecting the adjusted item returns it with the written stock. -/
theorem findItem_stockCommitted (st : DBState) (itemId : Nat) (q : ℚ)
    (reason : String) (old : ℚ) (current : InventoryRow)
    (h : findItem st itemId = some current) :
    findItem (stockCommitted st itemId q reason old) itemId =
      some { current with stock := q } := by
  unfold findItem stockCommitted
  simp only [updateStock_filter, List.head?_map]
  unfold findItem at h
  rw [h]
  rfl

/-- The line-item loop inserts one row per request item, each tied to
the id of the sale, when no INSERT is rejected. -/
theorem insertItems_ok (sid : Nat) (items : List SaleReqItem) :
    ∀ (k : Nat) (failAt : Nat → Bool) (rows : List SaleItemRow) (k2 : Nat),
      insertItems sid items k failAt = some (rows, k2) →
      rows.length = items.length ∧ ∀ r ∈ rows, r.saleId = sid := by
  induction items with
  | nil =>
    intro k f rows k2 h
    simp only [insertItems, Option.some.injEq, Prod.mk.injEq] at h
    rw [← h.1]
    exact ⟨rfl, by intro r hr; cases hr⟩
  | cons it rest ih =>
    intro k f rows k2 h
    simp only [insertItems] at h
    by_cases hf : f k
    · rw [if_pos hf] at h; cases h
    · rw [if_neg hf] at h
      cases hrec : insertItems sid rest (k + 1) f with
      | none => rw [hrec] at h; cases h
      | some p =>
        rw [hrec] at h
        obtain ⟨rows0, k3⟩ := p
        simp only [Option.some.injEq, Prod.mk.injEq] at h
        obtain ⟨hrows, -⟩ := h
        obtain ⟨hlen, hall⟩ := ih (k + 1) f rows0 k3 hrec
        rw [← hrows]
        constructor
        · simp [hlen]
        · intro r hr
          rcases List.mem_cons.mp hr with h1 | h1
          · rw [h1]
          · exact hall r h1

/-- Case analysis of the sale handler: every run either rolls back to
the original state or commits exactly the described rows. -/
theorem commitSale_cases (st : DBState) (req : SaleRequest)
    (failAt : Nat → Bool) :
    commitSale st req failAt = (st, none) ∨
    ∃ rows k, insertItems st.nextSaleId req.items 1 failAt = some (rows, k) ∧
      ((req.memberDetails = none ∧
        commitSale st req failAt = (saleCommitted st req rows,
          some st.nextSaleId)) ∨
       (∃ md, req.memberDetails = some md ∧
        commitSale st req failAt = (saleCommittedMember st req rows md,
          some st.nextSaleId))) := by
  unfold commitSale
  by_cases h0 : failAt 0
  · rw [if_pos h0]; exact Or.inl rfl
  · rw [if_neg h0]
    cases hI : insertItems st.nextSaleId req.items 1 failAt with
    | none => exact Or.inl rfl
    | some p =>
      obtain ⟨rows, k⟩ := p
      dsimp only
      cases hmd : req.memberDetails with
      | none =>
        dsimp only
        by_cases hk : failAt k
        · rw [if_pos hk]; exact Or.inl rfl
        · rw [if_neg hk]
          exact Or.inr ⟨rows, k, rfl, Or.inl ⟨rfl, rfl⟩⟩
      | some md =>
        dsimp only
        by_cases hk : failAt k
        · rw [if_pos hk]; exact Or.inl rfl
        · rw [if_neg hk]
          by_cases hk1 : failAt (k + 1)
          · rw [if_pos hk1]; exact Or.inl rfl
          · rw [if_neg hk1]
            by_cases hk2 : failAt (k + 2)
            · rw [if_pos hk2]; exact Or.inl rfl
            · rw [if_neg hk2]
              exact Or.inr ⟨rows, k, rfl, Or.inr ⟨md, rfl, rfl⟩⟩

/-- Unpacks the well-formedness bound into its three parts. -/
theorem WF_parts (st : DBState) (hwf : WF st = true) :
    (∀ s ∈ st.sales, s.id < st.nextSaleId) ∧
    (∀ r ∈ st.salesItems, r.saleId < st.nextSaleId) ∧
    (∀ r ∈ st.pointsHistory, r.saleId < st.nextSaleId) := by
  simp only [WF, Bool.and_eq_true, List.all_eq_true, decide_eq_true_eq]
    at hwf
  exact ⟨hwf.1.1, hwf.1.2, hwf.2⟩

/-- A fold keeping the larger of the accumulator and a mapped value
computes the maximum of the mapped values. -/
theorem foldl_max_eq (f : String → Nat) (step : Nat → String → Nat)
    (hstep : ∀ mx mid, step mx mid = if f mid > mx then f mid else mx)
    (l : List String) :
    ∀ mx : Nat, l.foldl step mx = max mx ((l.map f).foldr max 0) := by
  induction l with
  | nil => intro mx; simp
  | cons b l ih =>
    intro mx
    simp only [List.foldl_cons, List.map_cons, List.foldr_cons, ih, hstep]
    split <;> omega

/-- The forEach fold of the handler equals the maximum of the first-digit-run
values. -/
theorem maxNumber_eq (ids : List String) :
    maxNumber ids = (ids.map runValue).foldr max 0 := by
  have hstep : ∀ (mx : Nat) (mid : String),
      (match firstDigitRun mid.data with
       | some ds => let n := parseDigits ds; if n > mx then n else mx
       | none => mx) = if runValue mid > mx then runValue mid else mx := by
    intro mx mid
    cases h : firstDigitRun mid.data with
    | none =>
      have hmx : ¬ (0 > mx) := by omega
      simp [runValue, h, hmx]
    | some ds => simp [runValue, h]
  unfold maxNumber
  rw [foldl_max_eq runValue _ hstep ids 0]
  omega

/-- Case analysis of the observable state of the stock handler: every run
leaves the database untouched or applies exactly the committed pair of
writes. -/
theorem adjustStock_state_cases (st : DBState) (itemId : Nat)
    (nq : Option ℚ) (reason : String) (failAt : Nat → Bool) :
    (adjustStock st itemId nq reason failAt).1 = st ∨
    ∃ q current, nq = some q ∧ ¬q < 0 ∧ findItem st itemId = some current ∧
      (adjustStock st itemId nq reason failAt).1 =
        stockCommitted st itemId q reason current.stock := by
  unfold adjustStock
  cases nq with
  | none => exact Or.inl rfl
  | some q =>
    dsimp only
    by_cases h1 : q < 0
    · rw [if_pos h1]; exact Or.inl rfl
    · rw [if_neg h1]
      by_cases h2 : failAt 0
      · rw [if_pos h2]; exact Or.inl rfl
      · rw [if_neg h2]
        cases hf : findItem st itemId with
        | none => exact Or.inl rfl
        | some current =>
          dsimp only
          by_cases h3 : failAt 1
          · rw [if_pos h3]; exact Or.inl rfl
          · rw [if_neg h3]
            by_cases h4 : failAt 2
            · rw [if_pos h4]; exact Or.inl rfl
            · rw [if_neg h4]
              by_cases h5 : failAt 3
              · rw [if_pos h5]; exact Or.inl rfl
              · rw [if_neg h5]
                by_cases h6 : failAt 4
                · rw [if_pos h6]
                  exact Or.inr ⟨q, current, rfl, h1, rfl, rfl⟩
                · rw [if_neg h6]
                  cases hf2 : findItem
                      (stockCommitted st itemId q reason current.stock)
                      itemId with
                  | none => exact Or.inr ⟨q, current, rfl, h1, rfl, rfl⟩
                  | some u => exact Or.inr ⟨q, current, rfl, h1, rfl, rfl⟩

/-- A stock adjustment that answers 200 has applied exactly the two
writes and returns the post-update item. -/
theorem adjustStock_ok (st : DBState) (itemId : Nat) (q : ℚ)
    (reason : String) (failAt : Nat → Bool) (current item : InventoryRow)
    (hfind : findItem st itemId = some current)
    (hok : (adjustStock st itemId (some q) reason failAt).2.1 = .ok item) :
    item = { current with stock := q } ∧
    (adjustStock st itemId (some q) reason failAt).1 =
      stockCommitted st itemId q reason current.stock := by
  unfold adjustStock at hok ⊢
  dsimp only at hok ⊢
  by_cases h1 : q < 0
  · rw [if_pos h1] at hok; simp at hok
  · rw [if_neg h1] at hok ⊢
    by_cases h2 : failAt 0
    · rw [if_pos h2] at hok; simp at hok
    · rw [if_neg h2] at hok ⊢
      rw [hfind] at hok ⊢
      dsimp only at hok ⊢
      by_cases h3 : failAt 1
      · rw [if_pos h3] at hok; simp at hok
      · rw [if_neg h3] at hok ⊢
        by_cases h4 : failAt 2
        · rw [if_pos h4] at hok; simp at hok
        · rw [if_neg h4] at hok ⊢
          by_cases h5 : failAt 3
          · rw [if_pos h5] at hok; simp at hok
          · rw [if_neg h5] at hok ⊢
            by_cases h6 : failAt 4
            · rw [if_pos h6] at hok; simp at hok
            · rw [if_neg h6] at hok ⊢
              rw [findItem_stockCommitted st itemId q reason current.stock
                current hfind] at hok ⊢
              dsimp only at hok ⊢
              exact ⟨by injection hok with h; exact h.symm, rfl⟩

/-- A non-negative write keeps every stock quantity non-negative. -/
theorem nonNeg_updateStock (inv : List InventoryRow) (itemId : Nat) (q : ℚ)
    (hq : ¬q < 0) (h : inv.all (fun r => 0 ≤ r.stock) = true) :
    (updateStock inv itemId q).all (fun r => 0 ≤ r.stock) = true := by
  rw [List.all_eq_true] at h ⊢
  intro r hr
  rcases List.mem_map.mp hr with ⟨a, ha, heq⟩
  by_cases hid : a.id = itemId
  · rw [if_pos (by simpa using hid)] at heq
    simp only [← heq, decide_eq_true_eq]
    exact not_lt.mp hq
  · rw [if_neg (by simpa using hid)] at heq
    rw [← heq]
    exact h a ha

/-! ### Claim theorems -/

/-- C3: nextMemberId returns `M` followed by one plus the maximum over
all members of the numeric value of the first digit run in the
identifier (taking 0 when no digit run exists), zero-padded to at least
3 digits; in particular {M001, M007, M003} yields M008, the empty set
yields M001, and {M999} yields M1000. -/
theorem nextMemberId_correct :
    (∀ ids : List String, nextMemberId ids = specNextMemberId ids) ∧
    nextMemberId ["M001", "M007", "M003"] = "M008" ∧
    nextMemberId [] = "M001" ∧
    nextMemberId ["M999"] = "M1000" := by
  refine ⟨fun ids => ?_, by decide, by decide, by decide⟩
  unfold nextMemberId specNextMemberId
  rw [maxNumber_eq]

/-- C8: the sale handler never touches the inventory table: for every
request and every fault pattern, successful or not, the inventory rows
(hence every stock quantity, and also the stock history) are the
same after the operation as before it. -/
theorem commitSale_inventory_frame (st : DBState) (req : SaleRequest)
    (failAt : Nat → Bool) :
    (commitSale st req failAt).1.inventory = st.inventory ∧
    (commitSale st req failAt).1.stockHistory = st.stockHistory := by
  rcases commitSale_cases st req failAt with h | ⟨rows, k, hI, hcase⟩
  · rw [h]; exact ⟨rfl, rfl⟩
  · rcases hcase with ⟨hmd, h⟩ | ⟨md, hmd, h⟩
    · rw [h]; exact ⟨rfl, rfl⟩
    · rw [h]; exact ⟨rfl, rfl⟩

/-- C10: the direct points update answers success even when no member
with the given identifier exists, in which case no row is changed; its
only other outcome is the 500 storage failure, never a NotFound. -/
theorem updatePoints_missing_member (st : DBState) (mid : String) (p : ℚ)
    (h : ∀ r ∈ st.members, r.memberId ≠ mid) :
    updatePoints st mid p false = (st, .success) := by
  unfold updatePoints
  rw [updateMemberPoints_id st.members mid p h]
  rfl

/-- C10 witness: updating points of the absent member M999 answers
success and leaves the database unchanged. -/
theorem updatePoints_missing_member_witness :
    updatePoints stMember "M999" 5 false = (stMember, .success) :=
  updatePoints_missing_member stMember "M999" 5 (by decide)

/-- C9 counterexample: the direct points update stores a negative
balance: updating member M001 (previously at 100 points) with -5
succeeds and persists -5, refuting that no operation can store a
negative points balance. -/
theorem updatePoints_negative_counterexample :
    (updatePoints stMember "M001" (-5) false).2 = .success ∧
    (updatePoints stMember "M001" (-5) false).1.members =
      [⟨"M001", "Ann", "ann@shop.test", "0123", "Gold", -5, 0⟩] :=
  ⟨rfl, by decide⟩

/-- C9 amended: the balance-mutating operations enforce no
non-negativity: the direct update always succeeds and overwrites every
matching member row with exactly the caller-supplied value
(negative values included), and the sale-commit member UPDATE likewise
stores the caller-supplied newTotalPoints verbatim. -/
theorem points_balance_unvalidated (st : DBState) (mid : String) (p : ℚ) :
    ((updatePoints st mid p false).2 = .success ∧
      ∀ r ∈ (updatePoints st mid p false).1.members,
        r.memberId = mid → r.points = p) ∧
    (∀ (req : SaleRequest) (md : MemberDetails) (r : MemberRow),
      req.memberId = some mid → r ∈ membersAfterSale st req md →
      r.memberId = mid → r.points = md.newTotalPoints) := by
  constructor
  · constructor
    · rfl
    · intro r hr hid
      exact points_of_mem_updateMemberPoints st.members mid p r hr hid
  · intro req md r hmid hr hid
    unfold membersAfterSale at hr
    rw [hmid] at hr
    exact points_of_mem_updateMemberPoints st.members mid
      md.newTotalPoints r hr hid

/-- C9 amended witness: with member M001 at 100 points, the direct
update with -5 succeeds and the stored row for M001 carries -5. -/
theorem points_balance_unvalidated_witness :
    (updatePoints stMember "M001" (-5) false).2 = .success ∧
    (⟨"M001", "Ann", "ann@shop.test", "0123", "Gold", -5, 0⟩ :
      MemberRow).points = -5 :=
  ⟨(points_balance_unvalidated stMember "M001" (-5)).1.1,
   (points_balance_unvalidated stMember "M001" (-5)).1.2
     ⟨"M001", "Ann", "ann@shop.test", "0123", "Gold", -5, 0⟩
     (by decide) rfl⟩

/-- C7 counterexample: a member-creation request missing the name is
rejected before any insert, but with status 500, not 400: the
validation throw lands in the generic catch block. -/
theorem createMember_status_counterexample :
    (createMember stEmpty "" "ann@shop.test" "0123" "Gold"
        noFail).2.1 = .failure 500 ∧
    (createMember stEmpty "" "ann@shop.test" "0123" "Gold"
        noFail).2.1 ≠ .failure 400 ∧
    (createMember stEmpty "" "ann@shop.test" "0123" "Gold"
        noFail).1 = stEmpty :=
  ⟨rfl, by decide, rfl⟩

/-- C7 amended: create member rejects a request missing any of name,
email, phone or tier before any query is issued — no member is
inserted, the state is unchanged — but the failure is answered with
status 500 (the generic catch), not 400. -/
theorem createMember_missing_fields (st : DBState)
    (name email phone tier : String) (failAt : Nat → Bool)
    (h : name = "" ∨ email = "" ∨ phone = "" ∨ tier = "") :
    createMember st name email phone tier failAt =
      (st, .failure 500, []) := by
  unfold createMember
  rcases h with h | h | h | h <;> rw [if_pos (by simp [h])]

/-- C7 amended witness: a creation request with an empty email is
answered 500 with the database unchanged and no query issued. -/
theorem createMember_missing_fields_witness :
    createMember stEmpty "Ann" "" "0123" "Gold" noFail =
      (stEmpty, .failure 500, []) :=
  createMember_missing_fields stEmpty "Ann" "" "0123" "Gold" noFail
    (Or.inr (Or.inl rfl))

/-- C5 counterexample: a stock adjustment whose body fails validation
(no numeric quantity) is rejected only after the unit of work has been
opened: the trace of the failing request contains the begin event, so
validation is not rejected before a transaction is begun. -/
theorem validation_after_begin_counterexample :
    (adjustStock stInv 1 none "restock" noFail).2.1 = .invalidQuantity ∧
    Ev.beginTx ∈ (adjustStock stInv 1 none "restock" noFail).2.2 :=
  ⟨rfl, by decide⟩

/-- C5 amended: a request failing input validation causes no write and
leaves the state unchanged, but the stock handler opens its transaction
before validating (its trace is exactly the begin event), while the
member-creation handler validates before issuing any query. -/
theorem validation_no_writes (st : DBState) (itemId : Nat)
    (newQuantity : Option ℚ) (reason : String) (failAt : Nat → Bool)
    (name email phone tier : String) (failAt2 : Nat → Bool)
    (hq : newQuantity = none ∨ ∃ q, newQuantity = some q ∧ q < 0)
    (hm : name = "" ∨ email = "" ∨ phone = "" ∨ tier = "") :
    adjustStock st itemId newQuantity reason failAt =
      (st, .invalidQuantity, [.beginTx]) ∧
    createMember st name email phone tier failAt2 =
      (st, .failure 500, []) := by
  constructor
  · rcases hq with h | ⟨q, hq, hlt⟩
    · rw [h]; rfl
    · rw [hq]
      unfold adjustStock
      dsimp only
      rw [if_pos hlt]
  · unfold createMember
    rcases hm with h | h | h | h <;> rw [if_pos (by simp [h])]

/-- C5 amended witness: a negative-quantity stock request and an
empty-name creation request are both rejected with no write and no
state change. -/
theorem validation_no_writes_witness :
    adjustStock stInv 1 (some (-1)) "restock" noFail =
      (stInv, .invalidQuantity, [.beginTx]) ∧
    createMember stInv "" "e@x" "01" "Gold" noFail =
      (stInv, .failure 500, []) :=
  validation_no_writes stInv 1 (some (-1)) "restock" noFail
    "" "e@x" "01" "Gold" noFail
    (Or.inr ⟨-1, rfl, by decide⟩) (Or.inl rfl)

/-- C4 counterexample: the requested quantity 5/2 is not a whole
number, yet the handler does not fail with InvalidQuantity: it accepts
the request and persists the fractional stock quantity. -/
theorem adjustStock_nonwhole_counterexample :
    fiveHalves.den ≠ 1 ∧
    (adjustStock stInv 1 (some fiveHalves) "restock" noFail).2.1 ≠
      .invalidQuantity ∧
    (adjustStock stInv 1 (some fiveHalves) "restock" noFail).1.inventory =
      [⟨1, "Widget", "SKU1", "Stationery", fiveHalves, 5, 2, "Acme"⟩] :=
  ⟨by decide, by decide, by decide⟩

/-- C4 amended: adjustStock fails with InvalidQuantity (400) exactly
when the quantity is absent/not a number or negative, in which case
nothing is persisted; a non-negative quantity passes validation whether
whole or not, and a negative stock quantity is never stored (every run
preserves non-negativity of all stocks). -/
theorem adjustStock_validation (st : DBState) (itemId : Nat)
    (newQuantity : Option ℚ) (reason : String) (failAt : Nat → Bool) :
    ((newQuantity = none ∨ ∃ q, newQuantity = some q ∧ q < 0) →
      adjustStock st itemId newQuantity reason failAt =
        (st, .invalidQuantity, [.beginTx])) ∧
    (nonNegStocks st = true →
      nonNegStocks (adjustStock st itemId newQuantity reason failAt).1 =
        true) := by
  constructor
  · intro hq
    rcases hq with h | ⟨q, hq, hlt⟩
    · rw [h]; rfl
    · rw [hq]
      unfold adjustStock
      dsimp only
      rw [if_pos hlt]
  · intro hnn
    rcases adjustStock_state_cases st itemId newQuantity reason failAt with
      h | ⟨q, current, hq, hlt, hf, h⟩
    · rw [h]; exact hnn
    · rw [h]
      unfold nonNegStocks at hnn ⊢
      unfold stockCommitted
      dsimp only
      exact nonNeg_updateStock st.inventory itemId q hlt hnn

/-- C4 amended witness: the quantity -3 is rejected as InvalidQuantity
with the state unchanged, and the run keeps all stocks non-negative. -/
theorem adjustStock_validation_witness :
    adjustStock stInv 1 (some (-3)) "restock" noFail =
      (stInv, .invalidQuantity, [.beginTx]) ∧
    nonNegStocks (adjustStock stInv 1 (some (-3)) "restock" noFail).1 =
      true :=
  ⟨(adjustStock_validation stInv 1 (some (-3)) "restock" noFail).1
      (Or.inr ⟨-3, rfl, by decide⟩),
   (adjustStock_validation stInv 1 (some (-3)) "restock" noFail).2
      (by decide)⟩

/-- C2: a successful stock adjustment on an existing item sets that
stock of that item to the requested quantity and appends exactly one history
entry whose old quantity is the stock of the item immediately before the
call and whose new quantity is the request, both in one observable
state; moreover every run makes both writes observable together or
neither (the state is either untouched or exactly the committed pair). -/
theorem adjustStock_correct (st : DBState) (itemId : Nat) (q : ℚ)
    (reason : String) (failAt : Nat → Bool) (current : InventoryRow)
    (hfind : findItem st itemId = some current) :
    (∀ item, (adjustStock st itemId (some q) reason failAt).2.1 = .ok item →
      item = { current with stock := q } ∧
      (adjustStock st itemId (some q) reason failAt).1 =
        { st with
          inventory := updateStock st.inventory itemId q
          stockHistory :=
            st.stockHistory ++ [⟨itemId, current.stock, q, reason⟩] }) ∧
    ((adjustStock st itemId (some q) reason failAt).1 = st ∨
      (adjustStock st itemId (some q) reason failAt).1 =
        stockCommitted st itemId q reason current.stock) := by
  constructor
  · intro item hok
    exact adjustStock_ok st itemId q reason failAt current item hfind hok
  · rcases adjustStock_state_cases st itemId (some q) reason failAt with
      h | ⟨q2, current2, hq2, hlt, hf, h⟩
    · exact Or.inl h
    · obtain rfl : q2 = q := by injection hq2 with h2; exact h2.symm
      rw [hfind] at hf
      obtain rfl : current2 = current := by injection hf with h2; exact h2.symm
      exact Or.inr h

/-- C2 witness: adjusting the widget (stock 10) to 4 answers the
post-update item and commits the stock write together with the single
history entry recording old 10 and new 4. -/
theorem adjustStock_correct_witness :
    (adjustStock stInv 1 (some 4) "restock" noFail).1 =
      { stInv with
        inventory := updateStock stInv.inventory 1 4
        stockHistory := stInv.stockHistory ++ [⟨1, 10, 4, "restock"⟩] } :=
  ((adjustStock_correct stInv 1 4 "restock" noFail invWidget (by decide)).1
    ⟨1, "Widget", "SKU1", "Stationery", 4, 5, 2, "Acme"⟩ (by decide)).2

/-- C1: every sale commit is atomic: on success exactly one sale row
bears the fresh sale id, exactly len(items) line-item rows reference
it, and, when member details are present, exactly one points-history
row references it while the member balance is overwritten (with no
member details the members and points-history tables are untouched);
on failure of any step the observable state is exactly the pre-request
state. -/
theorem commitSale_atomic (st : DBState) (req : SaleRequest)
    (failAt : Nat → Bool) (hwf : WF st = true) :
    ((commitSale st req failAt).2 = none →
      (commitSale st req failAt).1 = st) ∧
    (∀ sid, (commitSale st req failAt).2 = some sid →
      ((commitSale st req failAt).1.sales.filter
          (fun s => s.id == sid)).length = 1 ∧
      ((commitSale st req failAt).1.salesItems.filter
          (fun r => r.saleId == sid)).length = req.items.length ∧
      (∀ md, req.memberDetails = some md →
        ((commitSale st req failAt).1.pointsHistory.filter
            (fun r => r.saleId == sid)).length = 1 ∧
        ∀ mid, req.memberId = some mid →
          ∀ r ∈ (commitSale st req failAt).1.members,
            r.memberId = mid → r.points = md.newTotalPoints) ∧
      (req.memberDetails = none →
        (commitSale st req failAt).1.pointsHistory = st.pointsHistory ∧
        (commitSale st req failAt).1.members = st.members)) := by
  obtain ⟨hwf1, hwf2, hwf3⟩ := WF_parts st hwf
  rcases commitSale_cases st req failAt with h | ⟨rows, k, hI, hcase⟩
  · rw [h]
    exact ⟨fun _ => rfl, fun sid hsid => by cases hsid⟩
  · obtain ⟨hlen, hall⟩ :=
      insertItems_ok st.nextSaleId req.items 1 failAt rows k hI
    rcases hcase with ⟨hmd, h⟩ | ⟨md, hmd, h⟩
    · rw [h]
      refine ⟨fun hc => Option.noConfusion hc, ?_⟩
      intro sid hsid
      obtain rfl : st.nextSaleId = sid := by injection hsid
      refine ⟨?_, ?_, ?_, fun _ => ⟨rfl, rfl⟩⟩
      · unfold saleCommitted
        dsimp only
        rw [List.filter_append,
          filter_beq_nil_of_lt SaleRow.id st.sales st.nextSaleId hwf1]
        simp [saleRowOf, List.filter]
      · unfold saleCommitted
        dsimp only
        rw [List.filter_append,
          filter_beq_nil_of_lt SaleItemRow.saleId st.salesItems
            st.nextSaleId hwf2]
        rw [List.filter_eq_self.mpr (fun a ha => by
          simp [hall a ha])]
        simp [hlen]
      · intro md hmd2
        rw [hmd] at hmd2
        cases hmd2
    · rw [h]
      refine ⟨fun hc => Option.noConfusion hc, ?_⟩
      intro sid hsid
      obtain rfl : st.nextSaleId = sid := by injection hsid
      refine ⟨?_, ?_, ?_, ?_⟩
      · unfold saleCommittedMember
        dsimp only
        rw [List.filter_append,
          filter_beq_nil_of_lt SaleRow.id st.sales st.nextSaleId hwf1]
        simp [saleRowOf, List.filter]
      · unfold saleCommittedMember
        dsimp only
        rw [List.filter_append,
          filter_beq_nil_of_lt SaleItemRow.saleId st.salesItems
            st.nextSaleId hwf2]
        rw [List.filter_eq_self.mpr (fun a ha => by
          simp [hall a ha])]
        simp [hlen]
      · intro md2 hmd2
        rw [hmd] at hmd2
        obtain rfl : md = md2 := by injection hmd2
        constructor
        · unfold saleCommittedMember
          dsimp only
          rw [List.filter_append,
            filter_beq_nil_of_lt PointsHistoryRow.saleId st.pointsHistory
              st.nextSaleId hwf3]
          simp [List.filter]
        · intro mid hmid r hr hrid
          unfold saleCommittedMember membersAfterSale at hr
          rw [hmid] at hr
          dsimp only at hr
          exact points_of_mem_updateMemberPoints st.members mid
            md.newTotalPoints r hr hrid
      · intro hmd2
        rw [hmd] at hmd2
        cases hmd2

/-- C1 witness: committing a one-item sale on the empty database with
no faults yields exactly one sale row with id 1 and exactly one
line-item row referencing it. -/
theorem commitSale_atomic_witness :
    ((commitSale stEmpty reqPlain noFail).1.sales.filter
        (fun s => s.id == 1)).length = 1 ∧
    ((commitSale stEmpty reqPlain noFail).1.salesItems.filter
        (fun r => r.saleId == 1)).length = reqPlain.items.length := by
  have h := (commitSale_atomic stEmpty reqPlain noFail (by decide)).2
    1 (by decide)
  exact ⟨h.1, h.2.1⟩

/-- C6: a sale committed with member details {pointsEarned e,
newTotalPoints t} for an existing member m leaves the balance of m at
t regardless of its prior value, and exactly one points-history row
exists for that sale, recording earned e and balance snapshot t. -/
theorem commitSale_member_points (st : DBState) (req : SaleRequest)
    (failAt : Nat → Bool) (m : String) (e t : ℚ) (r0 : MemberRow)
    (sid : Nat) (hwf : WF st = true)
    (hmid : req.memberId = some m)
    (hmd : req.memberDetails = some ⟨e, t⟩)
    (hmem : findMember st m = some r0)
    (hok : (commitSale st req failAt).2 = some sid) :
    (∃ r, findMember (commitSale st req failAt).1 m = some r ∧
      r.points = t) ∧
    (commitSale st req failAt).1.pointsHistory.filter
        (fun p => p.saleId == sid) = [⟨some m, sid, e, t⟩] := by
  obtain ⟨hwf1, hwf2, hwf3⟩ := WF_parts st hwf
  rcases commitSale_cases st req failAt with h | ⟨rows, k, hI, hcase⟩
  · rw [h] at hok; cases hok
  · rcases hcase with ⟨hmd0, h⟩ | ⟨md, hmd0, h⟩
    · rw [hmd0] at hmd; cases hmd
    · rw [hmd0] at hmd
      obtain rfl : md = ⟨e, t⟩ := by injection hmd
      rw [h] at hok ⊢
      obtain rfl : st.nextSaleId = sid := by injection hok
      constructor
      · unfold findMember saleCommittedMember membersAfterSale
        rw [hmid]
        dsimp only
        rw [updateMemberPoints_filter, List.head?_map]
        unfold findMember at hmem
        rw [hmem]
        exact ⟨_, rfl, rfl⟩
      · unfold saleCommittedMember
        dsimp only
        rw [List.filter_append,
          filter_beq_nil_of_lt PointsHistoryRow.saleId st.pointsHistory
            st.nextSaleId hwf3]
        rw [hmid]
        simp [List.filter]

/-- C6 witness: committing `reqMember` (member M001 at 100 points,
details {earned 10, new total 110}) leaves exactly one points-history
row for sale 1, recording earned 10 and balance 110. -/
theorem commitSale_member_points_witness :
    (commitSale stMember reqMember noFail).1.pointsHistory.filter
        (fun p => p.saleId == 1) = [⟨some "M001", 1, 10, 110⟩] :=
  (commitSale_member_points stMember reqMember noFail "M001" 10 110
    memAnn 1 (by decide) rfl rfl (by decide) (by decide)).2

end POS
